import Mathlib

set_option maxRecDepth 8000

/-!
Verification development for the go-adb-monitor capture pipeline.

Shallow embedding of the Go sources:
- `internal/capture/procnet.go`   (socket-table parser)
- `internal/adb` wire protocol    (`writeCommand`, `ReadLengthPrefixed`)
- `internal/store`                (ring store)
- `internal/capture/resolver.go`  (hostname resolver, private-IP filter)
- `internal/tracker`              (reconnect backoff)
- `internal/capture/tcpdump.go`   (trace-line parser and HTTP enrichment)

Go strings are modelled as Lean `String`/`List Char` (all inputs of interest
are ASCII, where Go byte indexing and rune indexing agree); raw protocol
bytes are modelled as `List Nat`; `time.Time` values are modelled as `Nat`
instants (or, for the tcpdump timestamp text, kept as the source text);
Go `int` is modelled as `Int` where a value can be negative and as `Nat`
where the source only ever increments from zero.
-/

namespace AdbMon

/-! ## Go string helpers

`unicode.IsSpace` for the Latin-1 range (all characters appearing in the
inputs handled here are ASCII; higher Unicode space classes are not used
by the repository's data). -/

def isGoSpace (c : Char) : Bool :=
  c = ' ' || c = '\t' || c = '\n' || c.toNat = 11 || c.toNat = 12 ||
  c = '\r' || c.toNat = 0x85 || c.toNat = 0xA0

/-- `strings.TrimSpace`. -/
def goTrimSpace (s : String) : String :=
  String.mk (((s.data.dropWhile isGoSpace).reverse.dropWhile isGoSpace).reverse)

/-- Auxiliary for `strings.Fields`: split on runs of white space. -/
def fieldsAux : List Char → List Char → List String
  | [], [] => []
  | [], acc => [String.mk acc.reverse]
  | c :: rest, acc =>
    if isGoSpace c then
      match acc with
      | [] => fieldsAux rest []
      | _ => String.mk acc.reverse :: fieldsAux rest []
    else fieldsAux rest (c :: acc)

/-- `strings.Fields`. -/
def goFields (s : String) : List String := fieldsAux s.data []

/-- Auxiliary for `strings.Split(s, "\n")`. -/
def splitNewlineAux : List Char → List Char → List String
  | [], acc => [String.mk acc.reverse]
  | c :: rest, acc =>
    if c = '\n' then String.mk acc.reverse :: splitNewlineAux rest []
    else splitNewlineAux rest (c :: acc)

/-- `strings.Split(s, "\n")`. -/
def goSplitNewline (s : String) : List String := splitNewlineAux s.data []

/-- `strings.HasPrefix`. -/
def goHasPrefix (s pre : String) : Bool := List.isPrefixOf pre.data s.data

/-- Value of a hex digit character (as accepted by `encoding/hex` and
`strconv.ParseUint` base 16). -/
def hexVal? (c : Char) : Option Nat :=
  if '0' ≤ c ∧ c ≤ '9' then some (c.toNat - 48)
  else if 'a' ≤ c ∧ c ≤ 'f' then some (c.toNat - 97 + 10)
  else if 'A' ≤ c ∧ c ≤ 'F' then some (c.toNat - 65 + 10)
  else none

/-- `encoding/hex.DecodeString`: pairs of hex digits to bytes; fails on an
odd-length input or a non-hex character. -/
def hexDecode : List Char → Option (List Nat)
  | [] => some []
  | [_] => none
  | a :: b :: rest =>
    match hexVal? a, hexVal? b, hexDecode rest with
    | some x, some y, some bs => some ((x * 16 + y) :: bs)
    | _, _, _ => none

/-- `strconv.ParseUint(s, 16, 16)` as used by `parseHexAddr`: any parse or
range error makes the caller fail, so the model returns `none` there. -/
def parseUintHex16 (s : String) : Option Nat :=
  match s.data.mapM hexVal? with
  | none => none
  | some [] => none
  | some ds =>
    let v := ds.foldl (fun acc d => acc * 16 + d) 0
    if v ≤ 0xFFFF then some v else none

/-- Loop of `strconv.ParseUint(s, 16, 8)` with the error ignored (as in
`parseConnState`): syntax error yields 0, range error yields the max 0xFF. -/
def parseHexU8Aux : List Char → Nat → Nat
  | [], acc => acc
  | c :: rest, acc =>
    match hexVal? c with
    | none => 0
    | some d => if acc * 16 + d > 255 then 255 else parseHexU8Aux rest (acc * 16 + d)

def goParseHexU8 (s : String) : Nat :=
  match s.data with
  | [] => 0
  | _ => parseHexU8Aux s.data 0

/-- `strconv.Atoi` with the error ignored (yielding 0), as in the uid field
parse: optional sign, then decimal digits only. -/
def goAtoi0 (s : String) : Int :=
  let digits (cs : List Char) : Option Nat :=
    match cs.mapM (fun c => if '0' ≤ c ∧ c ≤ '9' then some (c.toNat - 48) else none) with
    | none => none
    | some [] => none
    | some ds => some (ds.foldl (fun acc d => acc * 10 + d) 0)
  match s.data with
  | '-' :: rest => match digits rest with | some n => -(n : Int) | none => 0
  | '+' :: rest => match digits rest with | some n => (n : Int) | none => 0
  | cs => match digits cs with | some n => (n : Int) | none => 0

/-- Lower-case hex of a `Nat`, Go `fmt "%x"` (via `Nat.toDigits 16`, whose
digit characters are `0-9a-f`). -/
def hexRepr (n : Nat) : String := (Nat.toDigits 16 n).asString

/-- Upper-case hex digit. -/
def hexDigitUpper (d : Nat) : Char :=
  if d < 10 then Char.ofNat (48 + d) else Char.ofNat (65 + d - 10)

/-- Go `fmt "%02X"` for a value below 256 (the only use, `parseConnState`,
feeds it an 8-bit value). -/
def hexUpper02 (v : Nat) : String :=
  String.mk [hexDigitUpper (v / 16 % 16), hexDigitUpper (v % 16)]

/-! ## internal/capture/procnet.go -/

/-- `capture.Protocol` is a Go string type. -/
abbrev Protocol := String

def ProtoTCP : Protocol := "TCP"
def ProtoUDP : Protocol := "UDP"
def ProtoICMP : Protocol := "ICMP"

/-- `capture.ConnState` is a Go string type. -/
abbrev ConnState := String

def ConnEstablished : ConnState := "ESTABLISHED"
def ConnSynSent : ConnState := "SYN_SENT"
def ConnSynRecv : ConnState := "SYN_RECV"
def ConnFinWait1 : ConnState := "FIN_WAIT1"
def ConnFinWait2 : ConnState := "FIN_WAIT2"
def ConnTimeWait : ConnState := "TIME_WAIT"
def ConnClose : ConnState := "CLOSE"
def ConnCloseWait : ConnState := "CLOSE_WAIT"
def ConnLastAck : ConnState := "LAST_ACK"
def ConnListen : ConnState := "LISTEN"
def ConnClosing : ConnState := "CLOSING"

/-- `capture.Connection` (`time.Time` fields modelled as `Nat` instants). -/
structure Connection where
  ID : String
  Serial : String
  LocalIP : String
  LocalPort : Nat
  RemoteIP : String
  RemotePort : Nat
  State : ConnState
  Protocol : Protocol
  UID : Int
  FirstSeen : Nat
  LastSeen : Nat
deriving DecidableEq

/-- The Go zero value of `capture.Connection`. -/
def Connection.zero : Connection :=
  { ID := "", Serial := "", LocalIP := "", LocalPort := 0, RemoteIP := "",
    RemotePort := 0, State := "", Protocol := "", UID := 0, FirstSeen := 0,
    LastSeen := 0 }

instance : Inhabited Connection := ⟨Connection.zero⟩

/-- `parseHexIP`: hex-encoded IP to text.
8 hex digits: IPv4, little-endian 32-bit, printed `b3.b2.b1.b0`.
32 hex digits: IPv6, each 4-byte group read as a little-endian 32-bit word
`w` and printed as `%x(w>>16):%x(w&0xFFFF)`; the eight parts are joined
with `":"`.  Any other length, or a bad hex digit, is an error (`none`). -/
def parseHexIP (h : String) : Option String :=
  if h.length = 8 then
    match hexDecode h.data with
    | some [b0, b1, b2, b3] =>
      some (Nat.repr b3 ++ "." ++ Nat.repr b2 ++ "." ++ Nat.repr b1 ++ "." ++ Nat.repr b0)
    | _ => none
  else if h.length = 32 then
    match hexDecode h.data with
    | some [b0, b1, b2, b3, b4, b5, b6, b7, b8, b9, b10, b11, b12, b13, b14, b15] =>
      let w0 := b3 <<< 24 ||| b2 <<< 16 ||| b1 <<< 8 ||| b0
      let w1 := b7 <<< 24 ||| b6 <<< 16 ||| b5 <<< 8 ||| b4
      let w2 := b11 <<< 24 ||| b10 <<< 16 ||| b9 <<< 8 ||| b8
      let w3 := b15 <<< 24 ||| b14 <<< 16 ||| b13 <<< 8 ||| b12
      some (String.intercalate ":"
        [hexRepr (w0 >>> 16), hexRepr (w0 &&& 0xFFFF),
         hexRepr (w1 >>> 16), hexRepr (w1 &&& 0xFFFF),
         hexRepr (w2 >>> 16), hexRepr (w2 &&& 0xFFFF),
         hexRepr (w3 >>> 16), hexRepr (w3 &&& 0xFFFF)])
    | _ => none
  else none

/-- `strings.SplitN(addr, ":", 2)`: `none` when there is no colon (the
caller then errors out), else the parts before and after the first colon. -/
def splitFirstColon : List Char → List Char → Option (String × String)
  | [], _ => none
  | c :: rest, acc =>
    if c = ':' then some (String.mk acc.reverse, String.mk rest)
    else splitFirstColon rest (c :: acc)

/-- `parseHexAddr`: parses `"HEXIP:HEXPORT"`. -/
def parseHexAddr (addr : String) : Option (String × Nat) :=
  match splitFirstColon addr.data [] with
  | none => none
  | some (p0, p1) =>
    match parseHexIP p0, parseUintHex16 p1 with
    | some ip, some port => some (ip, port)
    | _, _ => none

/-- `parseConnState`: hex state byte to the canonical state name. -/
def parseConnState (hexState : String) : ConnState :=
  let v := goParseHexU8 hexState
  if v = 0x01 then ConnEstablished
  else if v = 0x02 then ConnSynSent
  else if v = 0x03 then ConnSynRecv
  else if v = 0x04 then ConnFinWait1
  else if v = 0x05 then ConnFinWait2
  else if v = 0x06 then ConnTimeWait
  else if v = 0x07 then ConnClose
  else if v = 0x08 then ConnCloseWait
  else if v = 0x09 then ConnLastAck
  else if v = 0x0A then ConnListen
  else if v = 0x0B then ConnClosing
  else "UNKNOWN_" ++ hexUpper02 v

/-- `capture.ProcNetParser` (serial plus the running id counter). -/
structure ProcNetParser where
  serial : String
  nextID : Nat
deriving DecidableEq

/-- `ProcNetParser.parseLine`: one (already trimmed) socket-table row.
Returns the parsed connection (if any) and the updated parser state. -/
def ProcNetParser.parseLine (p : ProcNetParser) (line : String)
    (proto : Protocol) (now : Nat) : Option Connection × ProcNetParser :=
  if (goFields line).length < 10 then (none, p)
  else
    match parseHexAddr ((goFields line).getD 1 "") with
    | none => (none, p)
    | some (localIP, localPort) =>
      match parseHexAddr ((goFields line).getD 2 "") with
      | none => (none, p)
      | some (remoteIP, remotePort) =>
        if localIP = "127.0.0.1" ∧ remoteIP = "127.0.0.1" then (none, p)
        else if remoteIP = "0.0.0.0" ∧
            parseConnState ((goFields line).getD 3 "") = ConnListen then (none, p)
        else
          (some { ID := p.serial ++ "-conn-" ++ Nat.repr (p.nextID + 1),
                  Serial := p.serial,
                  LocalIP := localIP, LocalPort := localPort,
                  RemoteIP := remoteIP, RemotePort := remotePort,
                  State := parseConnState ((goFields line).getD 3 ""),
                  Protocol := proto,
                  UID := goAtoi0 ((goFields line).getD 7 ""),
                  FirstSeen := now, LastSeen := now },
           { p with nextID := p.nextID + 1 })

/-- Line loop of `ProcNetParser.ParseProcNet`: trim each line, skip blanks
and the `sl` header, collect parsed connections in order. -/
def parseProcNetLines (p : ProcNetParser) (lines : List String)
    (proto : Protocol) (now : Nat) : List Connection × ProcNetParser :=
  match lines with
  | [] => ([], p)
  | l :: rest =>
    if goTrimSpace l = "" ∨ goHasPrefix (goTrimSpace l) "sl" then
      parseProcNetLines p rest proto now
    else
      match p.parseLine (goTrimSpace l) proto now with
      | (some c, p1) =>
        (c :: (parseProcNetLines p1 rest proto now).1,
         (parseProcNetLines p1 rest proto now).2)
      | (none, p1) => parseProcNetLines p1 rest proto now

/-- `ProcNetParser.ParseProcNet` (`time.Now()` passed in as `now`). -/
def ProcNetParser.ParseProcNet (p : ProcNetParser) (output : String)
    (proto : Protocol) (now : Nat) : List Connection × ProcNetParser :=
  parseProcNetLines p (goSplitNewline output) proto now

/-- The three-row socket-table input of the boundary scenario: a loopback
listen row and two established rows with UID 1000. -/
def procNetTestInput : String :=
  "   0: 0100007F:13AD 00000000:0000 0A 00000000:00000000 00:00000000 00000000     0        0 12345 1 0000000000000000 100 0 0 10 0\n   1: 0101A8C0:D4F2 220ED8AE:01BB 01 00000000:00000000 00:00000000 00000000  1000        0 54321 1 0000000000000000 100 0 0 10 0\n   2: 0101A8C0:C350 4E46C8AC:0050 01 00000000:00000000 00:00000000 00000000  1000        0 54322 1 0000000000000000 100 0 0 10 0"

/-! ## internal/adb wire protocol (`writeCommand`, `ReadLengthPrefixed`)

Raw wire bytes are modelled as `List Nat`; a Go string payload is its byte
sequence.  Reading from the connection is modelled by consuming a prefix of
the input byte list and returning the unread remainder. -/

/-- Error kinds surfaced by `ReadLengthPrefixed`: `protocol` wraps
`ErrProtocol` (invalid hex digit in the length prefix), `ioError` stands
for the wrapped `io.ReadFull` failures (short reads). -/
inductive AdbErr
  | protocol
  | ioError
deriving DecidableEq

/-- Lower-case hex digit character, as produced by `fmt "%x"`. -/
def hexDigitChar (d : Nat) : Char :=
  Char.ofNat (if d < 10 then 48 + d else 87 + d)

/-- General lower-case hex digits (most significant first), fuel-driven. -/
def hexDigitsAux : Nat → Nat → List Char
  | 0, _ => []
  | _ + 1, 0 => []
  | fuel + 1, n => hexDigitsAux fuel (n / 16) ++ [hexDigitChar (n % 16)]

/-- `fmt.Sprintf("%04x", n)`: zero-padded to width 4 (so exactly four
digits for `n < 2^16`, and the full hex expansion beyond). -/
def hex04x (n : Nat) : List Char :=
  if n < 65536 then
    [hexDigitChar (n / 4096), hexDigitChar (n / 256 % 16),
     hexDigitChar (n / 16 % 16), hexDigitChar (n % 16)]
  else hexDigitsAux (n + 1) n

/-- `writeCommand`: `fmt.Sprintf("%04x%s", len(cmd), cmd)` as wire bytes. -/
def writeCommand (cmd : List Nat) : List Nat :=
  (hex04x cmd.length).map Char.toNat ++ cmd

/-- The hex-digit switch inside `ReadLengthPrefixed`, on a raw byte. -/
def hexNibble (b : Nat) : Option Nat :=
  if 48 ≤ b ∧ b ≤ 57 then some (b - 48)
  else if 97 ≤ b ∧ b ≤ 102 then some (b - 97 + 10)
  else if 65 ≤ b ∧ b ≤ 70 then some (b - 65 + 10)
  else none

/-- `ReadLengthPrefixed`: read a 4-byte hex length prefix (accumulated with
`length <<= 4; length |= digit`, any non-hex byte being a protocol error),
then that many payload bytes.  Returns the payload and the unread rest. -/
def ReadLengthPrefixed (input : List Nat) : Except AdbErr (List Nat × List Nat) :=
  match input with
  | b0 :: b1 :: b2 :: b3 :: rest =>
    match hexNibble b0, hexNibble b1, hexNibble b2, hexNibble b3 with
    | some d0, some d1, some d2, some d3 =>
      if ((((0 <<< 4 ||| d0) <<< 4 ||| d1) <<< 4 ||| d2) <<< 4 ||| d3) = 0 then
        Except.ok ([], rest)
      else if rest.length < ((((0 <<< 4 ||| d0) <<< 4 ||| d1) <<< 4 ||| d2) <<< 4 ||| d3) then
        Except.error AdbErr.ioError
      else
        Except.ok
          (rest.take ((((0 <<< 4 ||| d0) <<< 4 ||| d1) <<< 4 ||| d2) <<< 4 ||| d3),
           rest.drop ((((0 <<< 4 ||| d0) <<< 4 ||| d1) <<< 4 ||| d2) <<< 4 ||| d3))
    | _, _, _, _ => Except.error AdbErr.protocol
  | _ => Except.error AdbErr.ioError

/-! ## internal/store (ring store)

`map[string]*Connection` stores pointers into the preallocated ring slice
`s.connections` (which is never reallocated), so the map is modelled as an
association list from key to ring index; updating through the pointer is
modelled by updating the indexed slot. The change callback is modelled by a
flag `onChange` (whether a callback is registered) and a returned Bool
(whether the callback was invoked by the operation). -/

/-- `capture.NetworkPacket` (`time.Time` kept as the source timestamp
text; Go `int` fields as `Int`). -/
structure NetworkPacket where
  ID : String
  Serial : String
  Timestamp : String
  SrcIP : String
  SrcPort : Nat
  DstIP : String
  DstPort : Nat
  Protocol : Protocol
  Length : Int
  Flags : String
  HTTPMethod : String
  HTTPPath : String
  HTTPHost : String
  HTTPStatus : Int
  Raw : String
deriving DecidableEq

/-- The Go zero value of `capture.NetworkPacket`. -/
def NetworkPacket.zero : NetworkPacket :=
  { ID := "", Serial := "", Timestamp := "", SrcIP := "", SrcPort := 0,
    DstIP := "", DstPort := 0, Protocol := "", Length := 0, Flags := "",
    HTTPMethod := "", HTTPPath := "", HTTPHost := "", HTTPStatus := 0,
    Raw := "" }

instance : Inhabited NetworkPacket := ⟨NetworkPacket.zero⟩

/-- The store's own `uitoa` digit loop (standard decimal digits). -/
def uitoaAux : Nat → Nat → List Char
  | 0, _ => []
  | _ + 1, 0 => []
  | fuel + 1, u => uitoaAux fuel (u / 10) ++ [Char.ofNat (48 + u % 10)]

/-- `uitoa`. -/
def uitoa (u : Nat) : String :=
  if u = 0 then "0" else String.mk (uitoaAux u u)

/-- `itoa`. -/
def itoa (i : Int) : String :=
  if i < 0 then "-" ++ uitoa (-i).toNat else uitoa i.toNat

/-- `connKey`: `local-ip:port->remote-ip:port`. -/
def connKey (c : Connection) : String :=
  c.LocalIP ++ ":" ++ itoa c.LocalPort ++ "->" ++ c.RemoteIP ++ ":" ++ itoa c.RemotePort

/-- Association-list lookup modelling the `connMap` map read. -/
def lookupIdx : List (String × Nat) → String → Option Nat
  | [], _ => none
  | (k, v) :: rest, key => if k = key then some v else lookupIdx rest key

/-- In-place update through the `*Connection` pointer at ring index `i`. -/
def updateAt : List α → Nat → (α → α) → List α
  | [], _, _ => []
  | a :: t, 0, f => f a :: t
  | a :: t, n + 1, f => a :: updateAt t n f

/-- `store.Store`. -/
structure Store where
  packets : List NetworkPacket
  pktHead : Nat
  pktCount : Nat
  pktMaxSize : Nat
  connections : List Connection
  connHead : Nat
  connCount : Nat
  connMaxSize : Nat
  connMap : List (String × Nat)
  onChange : Bool
deriving DecidableEq

/-- `store.New`: defaults 50000 / 10000 apply when a capacity is ≤ 0. -/
def Store.new (maxPackets maxConns : Int) : Store :=
  { packets := List.replicate (if maxPackets ≤ 0 then 50000 else maxPackets.toNat)
      NetworkPacket.zero,
    pktHead := 0, pktCount := 0,
    pktMaxSize := if maxPackets ≤ 0 then 50000 else maxPackets.toNat,
    connections := List.replicate (if maxConns ≤ 0 then 10000 else maxConns.toNat)
      Connection.zero,
    connHead := 0, connCount := 0,
    connMaxSize := if maxConns ≤ 0 then 10000 else maxConns.toNat,
    connMap := [], onChange := false }

/-- `Store.AddPacket`: overwrite slot `head % capacity`, advance the head,
saturate the counter; the callback (if registered) is invoked. -/
def Store.AddPacket (s : Store) (pkt : NetworkPacket) : Store × Bool :=
  ({ s with packets := s.packets.set (s.pktHead % s.pktMaxSize) pkt,
            pktHead := s.pktHead + 1,
            pktCount := if s.pktCount < s.pktMaxSize then s.pktCount + 1 else s.pktCount },
   s.onChange)

/-- `Store.AddConnection`: a known key updates `LastSeen`/`State` in place
through the map pointer and returns (no callback); a new key takes the next
ring slot, is indexed, and the callback (if registered) is invoked. -/
def Store.AddConnection (s : Store) (conn : Connection) : Store × Bool :=
  match lookupIdx s.connMap (connKey conn) with
  | some idx =>
    ({ s with connections := updateAt s.connections idx (fun e =>
                { e with LastSeen := conn.LastSeen, State := conn.State }) },
     false)
  | none =>
    ({ s with connections := s.connections.set (s.connHead % s.connMaxSize) conn,
              connMap := (connKey conn, s.connHead % s.connMaxSize) :: s.connMap,
              connHead := s.connHead + 1,
              connCount := if s.connCount < s.connMaxSize then s.connCount + 1
                           else s.connCount },
     s.onChange)

/-- The ring-walk index of the read loops:
`idx := head-1-i; if idx < 0 { idx += cap }; idx %= cap` (Go `int`
arithmetic, `%` truncated). -/
def ringIdx (head cap : Nat) (i : Nat) : Nat :=
  (Int.tmod (if (head : Int) - 1 - i < 0 then (head : Int) - 1 - i + cap
             else (head : Int) - 1 - i) cap).toNat

/-- `Store.GetRecentPackets`: up to n entries, newest first. -/
def Store.GetRecentPackets (s : Store) (n : Int) : List NetworkPacket :=
  if (if n > (s.pktCount : Int) then (s.pktCount : Int) else n) = 0 then []
  else
    (List.range (if n > (s.pktCount : Int) then (s.pktCount : Int) else n).toNat).map
      (fun i => s.packets.getD (ringIdx s.pktHead s.pktMaxSize i) NetworkPacket.zero)

/-- `Store.GetRecentConnections`: up to n entries, newest first. -/
def Store.GetRecentConnections (s : Store) (n : Int) : List Connection :=
  if (if n > (s.connCount : Int) then (s.connCount : Int) else n) = 0 then []
  else
    (List.range (if n > (s.connCount : Int) then (s.connCount : Int) else n).toNat).map
      (fun i => s.connections.getD (ringIdx s.connHead s.connMaxSize i) Connection.zero)

/-- `Store.GetConnectionsBySerial`: walk backward over the occupied slots,
keeping matches until n are collected (the fold keeps iterating but adds
nothing once n matches are collected — same result as the source's early
loop exit). -/
def Store.GetConnectionsBySerial (s : Store) (serial : String) (n : Int) : List Connection :=
  (List.range s.connCount).foldl
    (fun result i =>
      if (result.length : Int) < n ∧
          (s.connections.getD (ringIdx s.connHead s.connMaxSize i) Connection.zero).Serial
            = serial then
        result ++ [s.connections.getD (ringIdx s.connHead s.connMaxSize i) Connection.zero]
      else result)
    []

/-- The packet-zeroing loop of `Store.ClearDevice`
(`for i := range s.packets[:s.pktCount]`): zero matching entries among the
first `pktCount` slots. -/
def zeroDevicePackets (serial : String) : List NetworkPacket → Nat → List NetworkPacket
  | [], _ => []
  | p :: rest, 0 => p :: rest
  | p :: rest, n + 1 =>
    (if p.Serial = serial then NetworkPacket.zero else p) ::
      zeroDevicePackets serial rest n

/-- `Store.ClearDevice`: zero matching packet entries in place and delete
`connMap` entries whose pointed-to connection has the serial.  The
connection ring entries themselves are NOT touched. -/
def Store.ClearDevice (s : Store) (serial : String) : Store :=
  { s with
    packets := zeroDevicePackets serial s.packets s.pktCount,
    connMap := s.connMap.filter
      (fun kv => !((s.connections.getD kv.2 Connection.zero).Serial == serial)) }

/-- Test driver for the ring-overflow scenario: fold the packet list
through `AddPacket`. -/
def Store.addPackets (s : Store) (ps : List NetworkPacket) : Store :=
  ps.foldl (fun st p => (st.AddPacket p).1) s

/-- Test packets p0..p9 of the ring-overflow scenario. -/
def packetList10 : List NetworkPacket :=
  (List.range 10).map (fun i => { NetworkPacket.zero with ID := "p" ++ Nat.repr i })

/-- First test connection of the de-dup scenarios. -/
def connW1 : Connection :=
  { Connection.zero with
    Serial := "a", LocalIP := "1.2.3.4", LocalPort := 1,
    RemoteIP := "5.6.7.8", RemotePort := 2, LastSeen := 5 }

/-- Second test connection: same address 4-tuple, later `LastSeen`. -/
def connW2 : Connection :=
  { Connection.zero with
    Serial := "a", LocalIP := "1.2.3.4", LocalPort := 1,
    RemoteIP := "5.6.7.8", RemotePort := 2, LastSeen := 9 }

/-- Test packet of device "a" for the clear-device scenario. -/
def packetA : NetworkPacket :=
  { NetworkPacket.zero with ID := "p1", Serial := "a" }

/-- Clear-device scenario: store with one packet and one connection of
device "a", then `ClearDevice "a"`. -/
def clearDeviceScenario : Store :=
  (((Store.new 4 4).AddPacket packetA).1.AddConnection connW1).1.ClearDevice "a"

/-! ## internal/tracker reconnect backoff -/

/-- `reconnectBaseDelay` (seconds). -/
def reconnectBaseDelay : Nat := 1

/-- `reconnectMaxDelay` (seconds). -/
def reconnectMaxDelay : Nat := 30

/-- The delay update after a failed attempt in `Tracker.Run`:
`delay = min(delay*2, reconnectMaxDelay)`. -/
def nextReconnectDelay (delay : Nat) : Nat :=
  min (delay * 2) reconnectMaxDelay

/-- Delay slept before the n-th reconnect (0-based): `Run` starts at the
base delay and applies the update after each sleep. -/
def trackerDelay : Nat → Nat
  | 0 => reconnectBaseDelay
  | n + 1 => nextReconnectDelay (trackerDelay n)

/-! ## internal/capture/resolver.go

`net.IP` values are byte lists (4 bytes for IPv4, 16 for IPv6); `net.ParseIP`
is modelled after the Go standard library parser (dotted decimal with
leading-zero rejection; hex groups with one `::` and optional trailing
IPv4).  The parsed CIDR ranges of `isPrivateIP` are written out as
network/mask byte pairs exactly as `net.ParseCIDR` yields them. -/

abbrev IPBytes := List Nat

def isDigitChar (c : Char) : Bool := '0' ≤ c && c ≤ '9'

def isHexChar (c : Char) : Bool := (hexVal? c).isSome

def decValue (ds : List Char) : Nat :=
  ds.foldl (fun a c => a * 10 + (c.toNat - 48)) 0

def hexValue (ds : List Char) : Nat :=
  ds.foldl (fun a c => a * 16 + (hexVal? c).getD 0) 0

/-- One decimal octet of `parseIPv4` (Go `dtoi` plus the caller's checks:
digits present, no leading zero, at most 255). -/
def parseOctet (s : List Char) : Option (Nat × List Char) :=
  if (s.takeWhile isDigitChar) = [] then none
  else if (s.takeWhile isDigitChar).length > 1 ∧
      (s.takeWhile isDigitChar).getD 0 '0' = '0' then none
  else if decValue (s.takeWhile isDigitChar) > 255 then none
  else some (decValue (s.takeWhile isDigitChar), s.dropWhile isDigitChar)

/-- Go `parseIPv4`: exactly four octets separated by dots, consuming the
whole string.  (Go returns the IPv4-in-IPv6 16-byte form; the 4-byte form
is kept here — `Contains` normalises through `To4` either way.) -/
def parseIPv4 (s : List Char) : Option IPBytes :=
  match parseOctet s with
  | none => none
  | some (a, r1) =>
    match r1 with
    | '.' :: r1t =>
      match parseOctet r1t with
      | none => none
      | some (b, r2) =>
        match r2 with
        | '.' :: r2t =>
          match parseOctet r2t with
          | none => none
          | some (c, r3) =>
            match r3 with
            | '.' :: r3t =>
              match parseOctet r3t with
              | none => none
              | some (d, r4) => if r4 = [] then some [a, b, c, d] else none
            | _ => none
        | _ => none
    | _ => none

/-- Go `xtoi`: leading hex digits and their count. -/
def xtoi (s : List Char) : Option (Nat × Nat) :=
  if (s.takeWhile isHexChar) = [] then none
  else some (hexValue (s.takeWhile isHexChar), (s.takeWhile isHexChar).length)

/-- Post-loop logic of Go `parseIPv6` (remaining input already empty):
expand the `::` ellipsis to fill 16 bytes, or reject. -/
def parseIPv6Finish (acc : List Nat) (i : Nat) (ellipsis : Option Nat) :
    Option IPBytes :=
  if i < 16 then
    match ellipsis with
    | none => none
    | some e => some (acc.take e ++ List.replicate (16 - i) 0 ++ acc.drop e)
  else
    match ellipsis with
    | some _ => none
    | none => some acc

/-- Main loop of Go `parseIPv6`: hex chunks separated by `:`, at most one
`::`, optional trailing dotted IPv4.  `acc` holds the `i` bytes parsed so
far; the fuel bounds the (at most eight) iterations. -/
def parseIPv6Loop : Nat → List Char → Nat → Option Nat → List Nat → Option IPBytes
  | 0, _, _, _, _ => none
  | fuel + 1, s, i, ellipsis, acc =>
    if i < 16 then
      match xtoi s with
      | none => none
      | some (n, c) =>
        if n > 0xFFFF then none
        else if c < s.length ∧ s.getD c ' ' = '.' then
          if ellipsis = none ∧ i ≠ 12 then none
          else if i + 4 > 16 then none
          else
            match parseIPv4 s with
            | none => none
            | some ip4 => parseIPv6Finish (acc ++ ip4) (i + 4) ellipsis
        else
          if s.drop c = [] then
            parseIPv6Finish (acc ++ [n >>> 8, n &&& 0xFF]) (i + 2) ellipsis
          else if (s.drop c).getD 0 ' ' ≠ ':' ∨ (s.drop c).length = 1 then none
          else if (s.drop c).getD 1 ' ' = ':' then
            if ellipsis ≠ none then none
            else if s.drop (c + 2) = [] then
              parseIPv6Finish (acc ++ [n >>> 8, n &&& 0xFF]) (i + 2) (some (i + 2))
            else
              parseIPv6Loop fuel (s.drop (c + 2)) (i + 2) (some (i + 2))
                (acc ++ [n >>> 8, n &&& 0xFF])
          else
            parseIPv6Loop fuel (s.drop (c + 1)) (i + 2) ellipsis
              (acc ++ [n >>> 8, n &&& 0xFF])
    else if s = [] then parseIPv6Finish acc i ellipsis
    else none

/-- Go `parseIPv6`: optional leading `::`, then the chunk loop. -/
def parseIPv6 (s : List Char) : Option IPBytes :=
  if s.length ≥ 2 ∧ s.getD 0 ' ' = ':' ∧ s.getD 1 ' ' = ':' then
    if s.length = 2 then some (List.replicate 16 0)
    else parseIPv6Loop 9 (s.drop 2) 0 (some 0) []
  else parseIPv6Loop 9 s 0 none []

/-- The first `.` or `:` decides the family in `net.ParseIP`. -/
def firstDotColon : List Char → Option Char
  | [] => none
  | c :: rest => if c = '.' ∨ c = ':' then some c else firstDotColon rest

/-- `net.ParseIP`. -/
def parseIP (s : String) : Option IPBytes :=
  match firstDotColon s.data with
  | some '.' => parseIPv4 s.data
  | some ':' => parseIPv6 s.data
  | _ => none

/-- Go `IP.To4`: 4-byte form of an IPv4 or IPv4-mapped address. -/
def to4? (ip : IPBytes) : Option IPBytes :=
  if ip.length = 4 then some ip
  else if ip.length = 16 ∧ ip.take 10 = List.replicate 10 0 ∧
      ip.getD 10 0 = 0xFF ∧ ip.getD 11 0 = 0xFF then some (ip.drop 12)
  else none

/-- Go `IPNet.Contains`: normalise through `To4`, require matching widths,
compare under the mask. -/
def cidrContains (network mask ip0 : IPBytes) : Bool :=
  (match to4? ip0 with
   | some x => x
   | none => ip0).length == network.length &&
  (List.zip (List.zip network mask)
    (match to4? ip0 with
     | some x => x
     | none => ip0)).all (fun p => p.1.1 &&& p.1.2 == p.2 &&& p.1.2)

/-- The eight CIDR ranges of `isPrivateIP`, as network/mask byte pairs
(the result of `net.ParseCIDR` on each listed string). -/
def privateRanges : List (IPBytes × IPBytes) :=
  [([10, 0, 0, 0], [255, 0, 0, 0]),
   ([172, 16, 0, 0], [255, 240, 0, 0]),
   ([192, 168, 0, 0], [255, 255, 0, 0]),
   ([127, 0, 0, 0], [255, 0, 0, 0]),
   ([169, 254, 0, 0], [255, 255, 0, 0]),
   ([0, 0, 0, 0, 0, 0, 0, 0, 0, 0, 0, 0, 0, 0, 0, 1],
    [255, 255, 255, 255, 255, 255, 255, 255, 255, 255, 255, 255, 255, 255, 255, 255]),
   ([254, 128, 0, 0, 0, 0, 0, 0, 0, 0, 0, 0, 0, 0, 0, 0],
    [255, 192, 0, 0, 0, 0, 0, 0, 0, 0, 0, 0, 0, 0, 0, 0]),
   ([252, 0, 0, 0, 0, 0, 0, 0, 0, 0, 0, 0, 0, 0, 0, 0],
    [254, 0, 0, 0, 0, 0, 0, 0, 0, 0, 0, 0, 0, 0, 0, 0])]

/-- `isPrivateIP`: parse failure is not private; else any range contains. -/
def isPrivateIP (ip : String) : Bool :=
  match parseIP ip with
  | none => false
  | some parsed => privateRanges.any (fun r => cidrContains r.1 r.2 parsed)

/-- Association-list read modelling a Go string map (with found flag). -/
def assocFind : List (String × String) → String → Option String
  | [], _ => none
  | (k, v) :: rest, key => if k = key then some v else assocFind rest key

/-- Map assignment `m[k] = v`. -/
def assocSet : List (String × String) → String → String → List (String × String)
  | [], k, v => [(k, v)]
  | (k1, v1) :: rest, k, v =>
    if k1 = k then (k, v) :: rest else (k1, v1) :: assocSet rest k v

/-- The resolver state touched by `ResolveHostname`: the local DNS cache,
the pending set, the bounded async queue (channel capacity 256), and the
snooper's IP→hostname map read through `LookupIP`. -/
structure ResolverState where
  dnsCache : List (String × String)
  dnsPend : List String
  dnsQueue : List String
  snoopIPMap : List (String × String)
deriving DecidableEq

/-- `Resolver.ResolveHostname`: absent/unspecified and private IPs return
empty immediately; then local cache; then the snooper map (copying a hit
into the local cache); otherwise enqueue for async resolution (dedup via
the pending set, non-blocking bounded queue) and return empty. -/
def resolveHostname (st : ResolverState) (ip : String) : String × ResolverState :=
  if ip = "" ∨ ip = "0.0.0.0" ∨ ip = "::" then ("", st)
  else if isPrivateIP ip then ("", st)
  else
    match assocFind st.dnsCache ip with
    | some host => (host, st)
    | none =>
      if (assocFind st.snoopIPMap ip).getD "" ≠ "" then
        ((assocFind st.snoopIPMap ip).getD "",
         { st with dnsCache :=
            assocSet st.dnsCache ip ((assocFind st.snoopIPMap ip).getD "") })
      else if st.dnsPend.contains ip then ("", st)
      else
        ("", { st with
               dnsPend := ip :: st.dnsPend,
               dnsQueue := if st.dnsQueue.length < 256 then st.dnsQueue ++ [ip]
                           else st.dnsQueue })

/-! ## internal/capture/tcpdump.go

The Go regexes are RE2 with leftmost-first (backtracking-equivalent)
submatch semantics; each is compiled here into an equivalent deterministic
matcher.  For `rePacketLine`
`^(\d2:\d2:\d2\.\d+)\s+(IP6?)\s+(\S+)\.(\d+)\s+>\s+(\S+)\.(\d+):\s+(.+)$`
(quantifier braces elided in this comment):
- each `(\S+)\.(\d+)` group, being followed by a whitespace-class atom,
  must consume exactly one whitespace-free token, and the greedy `\S+`
  makes the split happen at the LAST dot whose suffix is all digits;
- the `:` after the destination digits, being followed by `\s+`, must end
  its token;
- the final `\s+(.+)$` takes all trailing whitespace, backing off one
  character only when nothing would remain for `.+`. -/

/-- RE2 `\s` class: tab, newline, form feed, carriage return, space. -/
def isRegexSpace (c : Char) : Bool :=
  c = ' ' || c.toNat = 9 || c.toNat = 10 || c.toNat = 12 || c.toNat = 13

/-- `\s+`: require at least one whitespace character, consume the run. -/
def requireWS (s : List Char) : Option (List Char) :=
  match s with
  | c :: rest => if isRegexSpace c then some (rest.dropWhile isRegexSpace) else none
  | [] => none

/-- `(\S+)` up against a following whitespace-class atom: one maximal
whitespace-free token. -/
def nextToken (s : List Char) : Option (List Char × List Char) :=
  if (s.takeWhile (fun c => !isRegexSpace c)) = [] then none
  else some (s.takeWhile (fun c => !isRegexSpace c),
             s.dropWhile (fun c => !isRegexSpace c))

/-- `(\S+)\.(\d+)` as it applies to a whole token: split at the last dot,
requiring a nonempty all-digit suffix and a nonempty prefix. -/
def splitLastDotDigits (tok : List Char) : Option (List Char × List Char) :=
  if (tok.reverse.takeWhile isDigitChar) = [] then none
  else
    match tok.reverse.dropWhile isDigitChar with
    | '.' :: pre =>
      if pre = [] then none
      else some (pre.reverse, (tok.reverse.takeWhile isDigitChar).reverse)
    | _ => none

/-- `^(\d{2}:\d{2}:\d{2}\.\d+)`: the timestamp group. -/
def matchTs (s : List Char) : Option (List Char × List Char) :=
  match s with
  | d1 :: d2 :: c1 :: d3 :: d4 :: c2 :: d5 :: d6 :: dot :: rest =>
    if isDigitChar d1 ∧ isDigitChar d2 ∧ c1 = ':' ∧ isDigitChar d3 ∧
        isDigitChar d4 ∧ c2 = ':' ∧ isDigitChar d5 ∧ isDigitChar d6 ∧
        dot = '.' ∧ (rest.takeWhile isDigitChar) ≠ [] then
      some ([d1, d2, c1, d3, d4, c2, d5, d6, dot] ++ rest.takeWhile isDigitChar,
            rest.dropWhile isDigitChar)
    else none
  | _ => none

/-- `(IP6?)`: greedy optional 6. -/
def matchVer : List Char → Option (List Char × List Char)
  | 'I' :: 'P' :: '6' :: rest => some (['I', 'P', '6'], rest)
  | 'I' :: 'P' :: rest => some (['I', 'P'], rest)
  | _ => none

/-- `rePacketLine.FindStringSubmatch` on a (trimmed) line: the seven
capture groups, or `none` when the line does not match. -/
def matchPacketLine (s : List Char) :
    Option (String × String × String × String × String × String × String) :=
  match matchTs s with
  | none => none
  | some (ts, r1) =>
    match requireWS r1 with
    | none => none
    | some r2 =>
      match matchVer r2 with
      | none => none
      | some (ver, r3) =>
        match requireWS r3 with
        | none => none
        | some r4 =>
          match nextToken r4 with
          | none => none
          | some (srcTok, r5) =>
            match splitLastDotDigits srcTok with
            | none => none
            | some (srcIP, srcPort) =>
              match requireWS r5 with
              | none => none
              | some r6 =>
                match r6 with
                | '>' :: r7 =>
                  match requireWS r7 with
                  | none => none
                  | some r8 =>
                    match nextToken r8 with
                    | none => none
                    | some (dstTok, r9) =>
                      if dstTok.getLast? = some ':' then
                        match splitLastDotDigits dstTok.dropLast with
                        | none => none
                        | some (dstIP, dstPort) =>
                          if r9 = [] then none
                          else if ¬isRegexSpace (r9.getD 0 ' ') then none
                          else if r9.dropWhile isRegexSpace ≠ [] then
                            some (String.mk ts, String.mk ver,
                                  String.mk srcIP, String.mk srcPort,
                                  String.mk dstIP, String.mk dstPort,
                                  String.mk (r9.dropWhile isRegexSpace))
                          else if (r9.takeWhile isRegexSpace).length ≥ 2 then
                            some (String.mk ts, String.mk ver,
                                  String.mk srcIP, String.mk srcPort,
                                  String.mk dstIP, String.mk dstPort,
                                  String.mk [(r9.takeWhile isRegexSpace).getLastD ' '])
                          else none
                      else none
                | _ => none

/-- `strconv.ParseUint(s, 10, 16)` with the error ignored, as in
`parsePort`: syntax error yields 0, range error yields the max 65535. -/
def goParseUint16Dec (s : String) : Nat :=
  match s.data.mapM (fun c => if isDigitChar c then some (c.toNat - 48) else none) with
  | none => 0
  | some [] => 0
  | some ds =>
    if ds.foldl (fun acc d => acc * 10 + d) 0 ≤ 65535 then
      ds.foldl (fun acc d => acc * 10 + d) 0
    else 65535

/-- Unsigned decimal digit run value (`none` when empty or non-digit). -/
def decDigitsVal (cs : List Char) : Option Nat :=
  match cs.mapM (fun c => if '0' ≤ c ∧ c ≤ '9' then some (c.toNat - 48) else none) with
  | none => none
  | some [] => none
  | some ds => some (ds.foldl (fun acc d => acc * 10 + d) 0)

/-- `strconv.Atoi` with its error observable (for `parseLength`). -/
def goAtoiOpt (s : String) : Option Int :=
  match s.data with
  | '-' :: rest =>
    (decDigitsVal rest).map (fun n => -(n : Int))
  | '+' :: rest => (decDigitsVal rest).map (fun n => (n : Int))
  | cs => (decDigitsVal cs).map (fun n => (n : Int))

def toLowerChar (c : Char) : Char :=
  if 'A' ≤ c ∧ c ≤ 'Z' then Char.ofNat (c.toNat + 32) else c

/-- `strings.ToLower` (ASCII range; the inputs here are ASCII). -/
def goToLower (s : String) : String := String.mk (s.data.map toLowerChar)

/-- `strings.Contains`. -/
def containsSub : List Char → List Char → Bool
  | [], needle => List.isPrefixOf needle []
  | h :: t, needle => List.isPrefixOf needle (h :: t) || containsSub t needle

def goContains (s sub : String) : Bool := containsSub s.data sub.data

/-- `strings.Index` (char offset; the inputs here are ASCII so byte and
char offsets agree). -/
def findSubIdx : List Char → List Char → Option Nat
  | [], needle => if needle = [] then some 0 else none
  | h :: t, needle =>
    if List.isPrefixOf needle (h :: t) then some 0
    else (findSubIdx t needle).map (fun i => i + 1)

/-- `TcpdumpParser.parseProtocol`. -/
def tcpdumpProtocol (rest : String) : Protocol :=
  if goContains (goToLower rest) "udp" then ProtoUDP
  else if goContains (goToLower rest) "icmp" then ProtoICMP
  else ProtoTCP

/-- First `length` field with a successor, for `parseLength`. -/
def findLengthField : List String → Option String
  | [] => none
  | "length" :: next :: _ => some next
  | _ :: rest => findLengthField rest

/-- `TcpdumpParser.parseLength`: `length N`, else a trailing integer. -/
def tcpdumpLength (rest : String) : Int :=
  match findLengthField (goFields rest) with
  | some next => (goAtoiOpt next).getD 0
  | none =>
    if (goFields rest).length ≥ 2 then
      match goAtoiOpt ((goFields rest).getLastD "") with
      | some n => n
      | none => 0
    else 0

/-- `TcpdumpParser.parseFlags`: the bracket contents after `Flags [`. -/
def tcpdumpFlags (rest : String) : String :=
  match findSubIdx rest.data ("Flags [".data) with
  | none => ""
  | some idx =>
    match findSubIdx (rest.data.drop idx) ("]".data) with
    | none => ""
    | some endi => String.mk ((rest.data.drop (idx + 7)).take (endi - 7))

/-- The `reHTTPRequest` method alternation (no method is a prefix of
another, so at most one alternative can apply at the line start). -/
def httpMethods : List String :=
  ["GET", "POST", "PUT", "DELETE", "PATCH", "HEAD", "OPTIONS", "CONNECT"]

def findMethodPrefix : List String → List Char → Option (String × List Char)
  | [], _ => none
  | m :: rest, line =>
    if List.isPrefixOf m.data line then some (m, line.drop m.data.length)
    else findMethodPrefix rest line

/-- `reHTTPRequest`: `^(METHOD)\s+(\S+)\s+HTTP/`. -/
def matchHTTPRequest (line : List Char) : Option (String × String) :=
  match findMethodPrefix httpMethods line with
  | none => none
  | some (m, r1) =>
    match requireWS r1 with
    | none => none
    | some r2 =>
      match nextToken r2 with
      | none => none
      | some (path, r3) =>
        match requireWS r3 with
        | none => none
        | some r4 =>
          if List.isPrefixOf ("HTTP/".data) r4 then some (m, String.mk path)
          else none

/-- `reHTTPResponse`: `^HTTP/[\d.]+\s+(\d{3})`. -/
def matchHTTPResponse (line : List Char) : Option String :=
  if List.isPrefixOf ("HTTP/".data) line then
    if ((line.drop 5).takeWhile (fun c => isDigitChar c || c = '.')) = [] then none
    else
      match requireWS ((line.drop 5).dropWhile (fun c => isDigitChar c || c = '.')) with
      | none => none
      | some r2 =>
        match r2 with
        | d1 :: d2 :: d3 :: _ =>
          if isDigitChar d1 ∧ isDigitChar d2 ∧ isDigitChar d3 then
            some (String.mk [d1, d2, d3])
          else none
        | _ => none
  else none

/-- `reHTTPHost`: `(?i)^Host:\s*(\S+)`. -/
def matchHTTPHost (line : List Char) : Option String :=
  if (line.take 5).map toLowerChar = "host:".data then
    if ((line.drop 5).dropWhile isRegexSpace).takeWhile (fun c => !isRegexSpace c) = []
    then none
    else some (String.mk
      (((line.drop 5).dropWhile isRegexSpace).takeWhile (fun c => !isRegexSpace c)))
  else none

/-- `capture.TcpdumpParser` (serial plus the running id counter). -/
structure TcpdumpParser where
  serial : String
  nextID : Nat
deriving DecidableEq

/-- `TcpdumpParser.EnrichWithHTTP`: request line, response line, or Host
header fill the packet's HTTP fields (the Go nil-pointer guard is the
caller's concern; `ParseStream` only passes live packets). -/
def EnrichWithHTTP (pkt : NetworkPacket) (line : String) : NetworkPacket :=
  match matchHTTPRequest (goTrimSpace line).data with
  | some (m, path) => { pkt with HTTPMethod := m, HTTPPath := path }
  | none =>
    match matchHTTPResponse (goTrimSpace line).data with
    | some st => { pkt with HTTPStatus := (goAtoiOpt st).getD 0 }
    | none =>
      match matchHTTPHost (goTrimSpace line).data with
      | some h => { pkt with HTTPHost := h }
      | none => pkt

/-- `TcpdumpParser.ParseLine` (`time.Time` kept as the matched timestamp
text). -/
def TcpdumpParser.ParseLine (p : TcpdumpParser) (line : String) :
    Option NetworkPacket × TcpdumpParser :=
  if goTrimSpace line = "" then (none, p)
  else
    match matchPacketLine (goTrimSpace line).data with
    | none => (none, p)
    | some (ts, _ver, srcIP, srcPortS, dstIP, dstPortS, rest) =>
      (some { ID := p.serial ++ "-" ++ Nat.repr (p.nextID + 1),
              Serial := p.serial,
              Timestamp := ts,
              SrcIP := srcIP, SrcPort := goParseUint16Dec srcPortS,
              DstIP := dstIP, DstPort := goParseUint16Dec dstPortS,
              Protocol := tcpdumpProtocol rest,
              Length := tcpdumpLength rest,
              Flags := tcpdumpFlags rest,
              HTTPMethod := "", HTTPPath := "", HTTPHost := "", HTTPStatus := 0,
              Raw := goTrimSpace line },
       { p with nextID := p.nextID + 1 })

/-- Line loop of `TcpdumpParser.ParseStream` (without the channel/done
plumbing): a new header line emits the previous open packet; a non-header
line enriches the open packet. -/
def processLinesAux : TcpdumpParser → List String → Option NetworkPacket →
    List NetworkPacket × Option NetworkPacket × TcpdumpParser
  | p, [], current => ([], current, p)
  | p, l :: rest, current =>
    match p.ParseLine l with
    | (some pkt, p1) =>
      match current with
      | some cur =>
        ((cur :: (processLinesAux p1 rest (some pkt)).1),
         (processLinesAux p1 rest (some pkt)).2.1,
         (processLinesAux p1 rest (some pkt)).2.2)
      | none => processLinesAux p1 rest (some pkt)
    | (none, p1) =>
      match current with
      | some cur => processLinesAux p1 rest (some (EnrichWithHTTP cur l))
      | none => processLinesAux p1 rest none

/-- `TcpdumpParser.ParseStream`: run the loop, then emit the last open
packet. -/
def TcpdumpParser.ParseStream (p : TcpdumpParser) (lines : List String) :
    List NetworkPacket × TcpdumpParser :=
  match processLinesAux p lines none with
  | (out, some last, p2) => (out ++ [last], p2)
  | (out, none, p2) => (out, p2)

/-- The trace-parse boundary line. -/
def traceLine1 : String :=
  "12:34:56.789012 IP 10.0.0.1.12345 > 93.184.216.34.80: tcp 100"

/-! # Theorems -/

/-- `length <<= 4; length |= d` is base-16 accumulation when `d < 16`. -/
theorem shiftLeft4_lor_eq (a d : Nat) (hd : d < 16) :
    a <<< 4 ||| d = 16 * a + d := by
  rw [Nat.shiftLeft_eq, Nat.mul_comm]
  have h := (Nat.mul_add_lt_is_or (i := 4) (by simpa using hd) a).symm
  simpa using h

/-- Decoding a digit char produced by the encoder recovers the digit. -/
theorem hexNibble_hexDigitChar (d : Nat) (hd : d < 16) :
    hexNibble (hexDigitChar d).toNat = some d := by
  interval_cases d <;> decide

/-- C1: `parseHexIP` decodes little-endian IPv4 hex as claimed on the two
dotted examples, but a 32-hex-digit IPv6-mapped IPv4 address is NOT
rendered in dotted IPv4 form: the `/proc` encoding of `::ffff:127.0.0.1`
comes out as the colon form `0:0:0:0:0:ffff:7f00:1`, not `127.0.0.1`
(contradicting the repository README's claimed `::ffff:1.2.3.4 → 1.2.3.4`
normalisation). -/
theorem C1_parseHexIP_mapped_ipv4_not_normalised :
    parseHexIP "0100007F" = some "127.0.0.1" ∧
    parseHexIP "0101A8C0" = some "192.168.1.1" ∧
    parseHexIP "0000000000000000FFFF00000100007F" = some "0:0:0:0:0:ffff:7f00:1" ∧
    parseHexIP "0000000000000000FFFF00000100007F" ≠ some "127.0.0.1" :=
  ⟨by decide, by decide, by decide, by decide⟩

/-- Rows dropped by `parseLine` are never returned: a parsed connection is
never loopback-to-loopback and never a listen socket with remote 0.0.0.0. -/
theorem parseLine_drop_guards (p : ProcNetParser) (line : String)
    (proto : Protocol) (now : Nat) (c : Connection) (q : ProcNetParser)
    (h : p.parseLine line proto now = (some c, q)) :
    ¬(c.LocalIP = "127.0.0.1" ∧ c.RemoteIP = "127.0.0.1") ∧
    ¬(c.RemoteIP = "0.0.0.0" ∧ c.State = ConnListen) := by
  unfold ProcNetParser.parseLine at h
  repeat' split at h
  all_goals first
    | (simp at h; done)
    | (simp only [Prod.mk.injEq, Option.some.injEq] at h
       obtain ⟨rfl, -⟩ := h
       dsimp only
       exact ⟨by assumption, by assumption⟩)

/-- Lift of `parseLine_drop_guards` over the line loop. -/
theorem parseProcNetLines_drop_guards :
    ∀ (lines : List String) (p : ProcNetParser) (proto : Protocol) (now : Nat)
      (c : Connection), c ∈ (parseProcNetLines p lines proto now).1 →
      ¬(c.LocalIP = "127.0.0.1" ∧ c.RemoteIP = "127.0.0.1") ∧
      ¬(c.RemoteIP = "0.0.0.0" ∧ c.State = ConnListen) := by
  intro lines
  induction lines with
  | nil => intro p proto now c h; simp [parseProcNetLines] at h
  | cons l rest ih =>
    intro p proto now c h
    unfold parseProcNetLines at h
    split at h
    · exact ih p proto now c h
    · split at h
      · rename_i c0 p1 heq
        replace h : c = c0 ∨ c ∈ (parseProcNetLines p1 rest proto now).1 := by
          simpa using h
        rcases h with rfl | hc
        · exact parseLine_drop_guards p (goTrimSpace l) proto now c p1 heq
        · exact ih p1 proto now c hc
      · rename_i p1 heq
        exact ih p1 proto now c h

/-- C3: parsing the three-row socket table returns exactly the two
established UID-1000 connections (remotes 174.216.14.34:443 and
172.200.70.78:80), the loopback listen row being dropped; and in general
no returned connection is loopback-to-loopback or listen-with-remote-0.0.0.0. -/
theorem C3_ParseProcNet_boundary_and_drops :
    (∀ now : Nat,
      (ProcNetParser.ParseProcNet ⟨"device1", 0⟩ procNetTestInput ProtoTCP now).1 =
      [{ ID := "device1-conn-1", Serial := "device1",
         LocalIP := "192.168.1.1", LocalPort := 54514,
         RemoteIP := "174.216.14.34", RemotePort := 443,
         State := ConnEstablished, Protocol := ProtoTCP, UID := 1000,
         FirstSeen := now, LastSeen := now },
       { ID := "device1-conn-2", Serial := "device1",
         LocalIP := "192.168.1.1", LocalPort := 50000,
         RemoteIP := "172.200.70.78", RemotePort := 80,
         State := ConnEstablished, Protocol := ProtoTCP, UID := 1000,
         FirstSeen := now, LastSeen := now }]) ∧
    (∀ (p : ProcNetParser) (output : String) (proto : Protocol) (now : Nat)
       (c : Connection), c ∈ (p.ParseProcNet output proto now).1 →
      ¬(c.LocalIP = "127.0.0.1" ∧ c.RemoteIP = "127.0.0.1") ∧
      ¬(c.RemoteIP = "0.0.0.0" ∧ c.State = ConnListen)) := by
  constructor
  · intro now
    rfl
  · intro p output proto now c h
    exact parseProcNetLines_drop_guards (goSplitNewline output) p proto now c h

/-- Witness for C3: the second conjunct applied to the first connection
returned by the concrete three-row parse. -/
theorem C3_ParseProcNet_witness :
    ¬(({ ID := "device1-conn-1", Serial := "device1",
         LocalIP := "192.168.1.1", LocalPort := 54514,
         RemoteIP := "174.216.14.34", RemotePort := 443,
         State := ConnEstablished, Protocol := ProtoTCP, UID := 1000,
         FirstSeen := 0, LastSeen := 0 } : Connection).LocalIP = "127.0.0.1" ∧
      ({ ID := "device1-conn-1", Serial := "device1",
         LocalIP := "192.168.1.1", LocalPort := 54514,
         RemoteIP := "174.216.14.34", RemotePort := 443,
         State := ConnEstablished, Protocol := ProtoTCP, UID := 1000,
         FirstSeen := 0, LastSeen := 0 } : Connection).RemoteIP = "127.0.0.1") := by
  have h := C3_ParseProcNet_boundary_and_drops
  exact (h.2 ⟨"device1", 0⟩ procNetTestInput ProtoTCP 0 _ (by rw [h.1 0]; exact List.mem_cons_self _ _)).1

/-- C2: framing round-trip — for every payload shorter than 2^16 bytes,
decoding `writeCommand`'s output (plus any trailing bytes) returns the
payload and the trailing bytes; and any input whose 4-byte length prefix
contains a non-hex byte decodes to the protocol error. -/
theorem C2_framing_roundtrip_and_protocol_error :
    (∀ (s rest : List Nat), s.length < 65536 →
      ReadLengthPrefixed (writeCommand s ++ rest) = Except.ok (s, rest)) ∧
    (∀ input : List Nat, 4 ≤ input.length →
      (∃ b ∈ input.take 4, hexNibble b = none) →
      ReadLengthPrefixed input = Except.error AdbErr.protocol) := by
  constructor
  · intro s rest hlen
    have henc : writeCommand s ++ rest =
        (hexDigitChar (s.length / 4096)).toNat ::
        (hexDigitChar (s.length / 256 % 16)).toNat ::
        (hexDigitChar (s.length / 16 % 16)).toNat ::
        (hexDigitChar (s.length % 16)).toNat :: (s ++ rest) := by
      unfold writeCommand hex04x
      rw [if_pos hlen]
      simp
    rw [henc]
    simp only [ReadLengthPrefixed]
    rw [hexNibble_hexDigitChar (s.length / 4096) (by omega),
        hexNibble_hexDigitChar (s.length / 256 % 16) (by omega),
        hexNibble_hexDigitChar (s.length / 16 % 16) (by omega),
        hexNibble_hexDigitChar (s.length % 16) (by omega)]
    have hval : ((((0 <<< 4 ||| s.length / 4096) <<< 4 ||| s.length / 256 % 16) <<< 4
        ||| s.length / 16 % 16) <<< 4 ||| s.length % 16) = s.length := by
      rw [shiftLeft4_lor_eq _ _ (by omega), shiftLeft4_lor_eq _ _ (by omega),
          shiftLeft4_lor_eq _ _ (by omega), shiftLeft4_lor_eq _ _ (by omega)]
      omega
    dsimp only
    rw [hval]
    by_cases h0 : s.length = 0
    · rw [if_pos h0]
      have : s = [] := List.length_eq_zero.mp h0
      subst this
      simp
    · rw [if_neg h0, if_neg (by simp only [List.length_append]; omega)]
      rw [List.take_left, List.drop_left]
  · intro input hlen hex
    obtain ⟨b, hmem, hnib⟩ := hex
    rcases input with _ | ⟨b0, input⟩
    · simp at hlen
    rcases input with _ | ⟨b1, input⟩
    · simp at hlen
    rcases input with _ | ⟨b2, input⟩
    · simp at hlen
    rcases input with _ | ⟨b3, rest⟩
    · simp at hlen
    simp only [List.take, List.mem_cons, List.not_mem_nil, or_false] at hmem
    rcases hmem with h | h | h | h <;>
      rw [h] at hnib <;>
      rcases h0 : hexNibble b0 with _ | d0 <;>
      rcases h1 : hexNibble b1 with _ | d1 <;>
      rcases h2 : hexNibble b2 with _ | d2 <;>
      rcases h3 : hexNibble b3 with _ | d3 <;>
      simp_all [ReadLengthPrefixed]

/-! ### List helper lemmas for the ring store -/

theorem getD_set_self (l : List α) (i : Nat) (a d : α) (h : i < l.length) :
    (l.set i a).getD i d = a := by
  induction l generalizing i with
  | nil => simp at h
  | cons x t ih =>
    cases i with
    | zero => simp
    | succ n => simpa using ih n (by simpa using h)

theorem getD_set_ne (l : List α) (i j : Nat) (a d : α) (h : j ≠ i) :
    (l.set i a).getD j d = l.getD j d := by
  induction l generalizing i j with
  | nil => simp
  | cons x t ih =>
    cases i with
    | zero =>
      cases j with
      | zero => exact absurd rfl h
      | succ n => simp
    | succ n =>
      cases j with
      | zero => simp
      | succ w => simpa using ih n w (by omega)

theorem updateAt_length (l : List α) (i : Nat) (f : α → α) :
    (updateAt l i f).length = l.length := by
  induction l generalizing i with
  | nil => simp [updateAt]
  | cons x t ih =>
    cases i with
    | zero => simp [updateAt]
    | succ n => simpa [updateAt] using ih n

theorem updateAt_getD_self (l : List α) (i : Nat) (f : α → α) (d : α)
    (h : i < l.length) : (updateAt l i f).getD i d = f (l.getD i d) := by
  induction l generalizing i with
  | nil => simp at h
  | cons x t ih =>
    cases i with
    | zero => simp [updateAt]
    | succ n => simpa [updateAt] using ih n (by simpa using h)

theorem updateAt_getD_ne (l : List α) (i j : Nat) (f : α → α) (d : α)
    (h : j ≠ i) : (updateAt l i f).getD j d = l.getD j d := by
  induction l generalizing i j with
  | nil => simp [updateAt]
  | cons x t ih =>
    cases i with
    | zero =>
      cases j with
      | zero => exact absurd rfl h
      | succ n => simp [updateAt]
    | succ n =>
      cases j with
      | zero => simp [updateAt]
      | succ w => simpa [updateAt] using ih n w (by omega)

/-- C10: an `AddConnection` whose key is already indexed mutates only the
indexed entry's `LastSeen` and `State`: heads, counters, the packet ring,
and the index map are unchanged, every other connection slot is unchanged,
and the change callback is not invoked — while `AddPacket` and a
new-key `AddConnection` invoke the callback exactly when one is set. -/
theorem C10_AddConnection_dedup_frame (s : Store) (conn : Connection) (idx : Nat)
    (h : lookupIdx s.connMap (connKey conn) = some idx) :
    (s.AddConnection conn).2 = false ∧
    (s.AddConnection conn).1.pktHead = s.pktHead ∧
    (s.AddConnection conn).1.pktCount = s.pktCount ∧
    (s.AddConnection conn).1.packets = s.packets ∧
    (s.AddConnection conn).1.connHead = s.connHead ∧
    (s.AddConnection conn).1.connCount = s.connCount ∧
    (s.AddConnection conn).1.connMap = s.connMap ∧
    (∀ j, j ≠ idx →
      (s.AddConnection conn).1.connections.getD j Connection.zero =
        s.connections.getD j Connection.zero) ∧
    (idx < s.connections.length →
      (s.AddConnection conn).1.connections.getD idx Connection.zero =
        { s.connections.getD idx Connection.zero with
          LastSeen := conn.LastSeen, State := conn.State }) ∧
    (∀ (s2 : Store) (pkt : NetworkPacket), (s2.AddPacket pkt).2 = s2.onChange) ∧
    (∀ (s2 : Store) (c2 : Connection),
      lookupIdx s2.connMap (connKey c2) = none →
      (s2.AddConnection c2).2 = s2.onChange) := by
  refine ⟨?_, ?_, ?_, ?_, ?_, ?_, ?_, ?_, ?_, ?_, ?_⟩
  all_goals simp only [Store.AddConnection, Store.AddPacket, h]
  all_goals first
    | rfl
    | (intro j hj
       exact updateAt_getD_ne s.connections idx j _ _ hj)
    | (intro hlen
       exact updateAt_getD_self s.connections idx _ _ hlen)
    | (intro s2 pkt
       trivial)
    | (intro s2 c2 hn
       simp [hn])

/-- Witness for C10: a store holding one indexed connection, updated by a
second insert with the same key. -/
theorem C10_AddConnection_dedup_frame_witness :
    (((Store.new 4 4).AddConnection connW1).1.AddConnection connW2).2 = false :=
  (C10_AddConnection_dedup_frame ((Store.new 4 4).AddConnection connW1).1 connW2
    0 (by decide)).1

/-- C5: inserting two connections with identical address 4-tuples yields a
connection count of 1; the second insert updates `LastSeen` and `State` of
the stored entry in place, does not advance the ring head, and does not
fire the callback. -/
theorem C5_AddConnection_dedup (m : Nat) (hm : 0 < m) (c1 c2 : Connection)
    (h1 : c2.LocalIP = c1.LocalIP) (h2 : c2.LocalPort = c1.LocalPort)
    (h3 : c2.RemoteIP = c1.RemoteIP) (h4 : c2.RemotePort = c1.RemotePort) :
    (((Store.new m m).AddConnection c1).1.AddConnection c2).1.connCount = 1 ∧
    ((Store.new m m).AddConnection c1).1.connHead = 1 ∧
    (((Store.new m m).AddConnection c1).1.AddConnection c2).1.connHead = 1 ∧
    (((Store.new m m).AddConnection c1).1.AddConnection c2).1.connections.getD 0
        Connection.zero =
      { c1 with LastSeen := c2.LastSeen, State := c2.State } ∧
    (((Store.new m m).AddConnection c1).1.AddConnection c2).2 = false := by
  have hkey : connKey c2 = connKey c1 := by
    unfold connKey
    rw [h1, h2, h3, h4]
  obtain ⟨k, rfl⟩ : ∃ k, m = k + 1 := ⟨m - 1, by omega⟩
  simp [Store.AddConnection, Store.new, lookupIdx, hkey,
        List.replicate_succ, updateAt]
  all_goals split <;> omega

/-- C6: `ClearDevice` zeroes the matching packet entry and removes the
index entry, but the matching connection RING entry is NOT zeroed: it still
carries the device's serial and is still returned by
`GetConnectionsBySerial`, contradicting both the claim and the function's
own doc ("removes all data for a specific device"). -/
theorem C6_ClearDevice_connection_entries_not_zeroed :
    clearDeviceScenario.packets.getD 0 NetworkPacket.zero = NetworkPacket.zero ∧
    lookupIdx clearDeviceScenario.connMap (connKey connW1) = none ∧
    clearDeviceScenario.connMap = [] ∧
    clearDeviceScenario.connections.getD 0 Connection.zero = connW1 ∧
    connW1.Serial = "a" ∧
    connW1 ≠ Connection.zero ∧
    clearDeviceScenario.GetConnectionsBySerial "a" 10 = [connW1] := by
  refine ⟨by decide, by decide, by decide, by decide, by decide, by decide, by decide⟩

/-- Witness for C5: two identical-address inserts into a capacity-3 store. -/
theorem C5_AddConnection_dedup_witness :
    (((Store.new 3 3).AddConnection connW1).1.AddConnection connW2).1.connCount = 1 :=
  (C5_AddConnection_dedup 3 (by decide) connW1 connW2 rfl rfl rfl rfl).1

/-! ### Ring-buffer contents after a sequence of packet inserts -/

theorem getD_append_length (l : List α) (a d : α) :
    (l ++ [a]).getD l.length d = a := by
  induction l with
  | nil => simp
  | cons x t ih => simp [ih]

theorem getD_append_left (l l2 : List α) (n : Nat) (d : α) (h : n < l.length) :
    (l ++ l2).getD n d = l.getD n d := by
  induction l generalizing n with
  | nil => simp at h
  | cons x t ih =>
    cases n with
    | zero => simp
    | succ w => simpa using ih w (by simpa using h)

theorem getD_eq_getElem_of_lt (l : List α) (n : Nat) (d : α) (h : n < l.length) :
    l.getD n d = l[n] := by
  rw [List.getD_eq_getElem?_getD, List.getElem?_eq_getElem h]
  rfl

/-- The capacity actually allocated by `Store.new` for a positive request. -/
theorem newSize_eq (c d : Nat) (hc : 0 < c) :
    (if ((c : Nat) : Int) ≤ 0 then d else ((c : Nat) : Int).toNat) = c := by
  split <;> omega

/-- Distinct in-window offsets map to distinct ring slots. -/
theorem ring_slot_ne (c len i : Nat) (hc : 0 < c) (h1 : 1 ≤ i) (h2 : i ≤ len)
    (h3 : i < c) : (len - i) % c ≠ len % c := by
  intro heq
  have hA : len = (len - i) + i := by omega
  have hAm : ((len - i) + i) % c = (len - i) % c := by
    rw [← hA]
    exact heq.symm
  have hr : (len - i) % c < c := Nat.mod_lt _ hc
  have hi' : i % c = i := Nat.mod_eq_of_lt h3
  rcases Nat.lt_or_ge ((len - i) % c + i) c with hlt | hge
  · have hx : ((len - i) + i) % c = (len - i) % c + i := by
      rw [Nat.add_mod, hi', Nat.mod_eq_of_lt hlt]
    omega
  · have hx : ((len - i) + i) % c = (len - i) % c + i - c := by
      rw [Nat.add_mod, hi', Nat.mod_eq_sub_mod hge,
          Nat.mod_eq_of_lt (by omega)]
    omega

/-- State of the store after folding a packet list through `AddPacket`
from a fresh store of capacity `c`: head counts all inserts, the counter
saturates, and slot `(k-1-i) % c` holds the `(k-1-i)`-th inserted packet
for every in-window offset `i`. -/
theorem addPackets_spec (c : Nat) (hc : 0 < c) (ps : List NetworkPacket) :
    ((Store.new c c).addPackets ps).pktMaxSize = c ∧
    ((Store.new c c).addPackets ps).packets.length = c ∧
    ((Store.new c c).addPackets ps).pktHead = ps.length ∧
    ((Store.new c c).addPackets ps).pktCount = min ps.length c ∧
    ∀ i, i < min ps.length c →
      ((Store.new c c).addPackets ps).packets.getD ((ps.length - 1 - i) % c)
          NetworkPacket.zero
        = ps.getD (ps.length - 1 - i) NetworkPacket.zero := by
  induction ps using List.reverseRecOn with
  | nil =>
    simp only [Store.addPackets, List.foldl_nil, Store.new]
    refine ⟨newSize_eq c 50000 hc, ?_, rfl, by simp, ?_⟩
    · rw [List.length_replicate]
      exact newSize_eq c 50000 hc
    · intro i hi
      simp at hi
  | append_singleton l a ih =>
    obtain ⟨ihMax, ihLen, ihHead, ihCount, ihSlots⟩ := ih
    have hstep : (Store.new c c).addPackets (l ++ [a]) =
        (((Store.new c c).addPackets l).AddPacket a).1 := by
      simp [Store.addPackets, List.foldl_append]
    have hlen : (l ++ [a]).length = l.length + 1 := by simp
    rw [hstep, hlen]
    refine ⟨?_, ?_, ?_, ?_, ?_⟩
    · simpa only [Store.AddPacket] using ihMax
    · simp only [Store.AddPacket]
      rw [List.length_set]
      exact ihLen
    · simp only [Store.AddPacket]
      rw [ihHead]
    · simp only [Store.AddPacket]
      rw [ihCount, ihMax]
      split <;> omega
    · intro i hi
      simp only [Store.AddPacket]
      rw [ihHead, ihMax]
      by_cases hi0 : i = 0
      · subst hi0
        have h1 : l.length + 1 - 1 - 0 = l.length := by omega
        rw [h1,
            getD_set_self _ _ _ _ (by rw [ihLen]; exact Nat.mod_lt _ hc),
            getD_append_length]
      · have h1 : l.length + 1 - 1 - i = l.length - i := by omega
        rw [h1,
            getD_set_ne _ _ _ _ _
              (ring_slot_ne c l.length i hc (by omega) (by omega) (by omega)),
            show l.length - i = l.length - 1 - (i - 1) by omega,
            ihSlots (i - 1) (by omega),
            getD_append_left _ _ _ _ (by omega)]

/-- `ringIdx` for an in-range walk (head at least `i+1`): plain modular
index, the negative-adjustment branch is not taken. -/
theorem ringIdx_of_le (head cap i : Nat) (hi : i + 1 ≤ head) :
    ringIdx head cap i = (head - 1 - i) % cap := by
  unfold ringIdx
  rw [if_neg (by omega)]
  have h1 : (head : Int) - 1 - i = ((head - 1 - i : Nat) : Int) := by omega
  rw [h1, ← Int.ofNat_tmod]
  exact Int.toNat_ofNat _

/-- The newest-first suffix as a range map. -/
theorem reverse_take_eq_map_range (c : Nat) (ps : List NetworkPacket)
    (hk : c ≤ ps.length) :
    ps.reverse.take c =
      (List.range c).map
        (fun i => ps.getD (ps.length - 1 - i) NetworkPacket.zero) := by
  apply List.ext_getElem
  · simp
    omega
  · intro i h1 h2
    have hic : i < c := by simpa using h2
    have hrev : i < ps.reverse.length := by simp; omega
    rw [List.getElem_take, List.getElem_map, List.getElem_range,
        List.getElem_reverse,
        getD_eq_getElem_of_lt _ _ _ (by omega)]

/-- C4: after inserting more packets than the capacity `c` into a fresh
store, the packet count is exactly `c` (and in general it is
`min inserted c`: monotonic, then saturated), and `GetRecentPackets c`
returns the last `c` inserted packets newest-first. -/
theorem C4_ring_overflow (c : Nat) (ps : List NetworkPacket) (hc : 0 < c)
    (hk : c < ps.length) :
    ((Store.new c c).addPackets ps).pktCount = c ∧
    ((Store.new c c).addPackets ps).GetRecentPackets c = ps.reverse.take c ∧
    (∀ qs : List NetworkPacket,
      ((Store.new c c).addPackets qs).pktCount = min qs.length c) := by
  obtain ⟨hMax, hLen, hHead, hCount, hSlots⟩ := addPackets_spec c hc ps
  have hCountc : ((Store.new c c).addPackets ps).pktCount = c := by
    rw [hCount]
    omega
  refine ⟨hCountc, ?_, fun qs => (addPackets_spec c hc qs).2.2.2.1⟩
  unfold Store.GetRecentPackets
  rw [hCountc]
  rw [if_neg (show ¬((c : Int) > (c : Int)) by omega),
      if_neg (show ¬((c : Int) = 0) by omega), Int.toNat_ofNat,
      reverse_take_eq_map_range c ps (by omega)]
  apply List.map_congr_left
  intro i hi
  have hic : i < c := List.mem_range.mp hi
  rw [hHead, hMax, ringIdx_of_le _ _ _ (by omega), hSlots i (by omega)]

/-- Witness for C4: capacity 5, packets p0..p9. -/
theorem C4_ring_overflow_witness :
    0 < 5 ∧ 5 < packetList10.length ∧
    ((Store.new 5 5).addPackets packetList10).pktCount = 5 ∧
    ((Store.new 5 5).addPackets packetList10).GetRecentPackets 5 =
      packetList10.reverse.take 5 :=
  ⟨by decide, by decide,
   (C4_ring_overflow 5 packetList10 (by decide) (by decide)).1,
   (C4_ring_overflow 5 packetList10 (by decide) (by decide)).2.1⟩

/-- C7: the trace line parses to a packet with source 10.0.0.1:12345,
destination 93.184.216.34:80, protocol TCP, length 100; the following
non-header lines do not parse as packets, and through the stream loop they
enrich the open packet with method GET, path /api/users and host
example.com. -/
theorem C7_tcpdump_trace_parse_and_enrichment :
    (TcpdumpParser.ParseLine ⟨"dev", 0⟩ traceLine1).1 =
      some { ID := "dev-1", Serial := "dev", Timestamp := "12:34:56.789012",
             SrcIP := "10.0.0.1", SrcPort := 12345,
             DstIP := "93.184.216.34", DstPort := 80,
             Protocol := ProtoTCP, Length := 100, Flags := "",
             HTTPMethod := "", HTTPPath := "", HTTPHost := "", HTTPStatus := 0,
             Raw := traceLine1 } ∧
    (TcpdumpParser.ParseLine ⟨"dev", 1⟩ "GET /api/users HTTP/1.1").1 = none ∧
    (TcpdumpParser.ParseLine ⟨"dev", 1⟩ "Host: example.com").1 = none ∧
    (TcpdumpParser.ParseStream ⟨"dev", 0⟩
        [traceLine1, "GET /api/users HTTP/1.1", "Host: example.com"]).1 =
      [{ ID := "dev-1", Serial := "dev", Timestamp := "12:34:56.789012",
         SrcIP := "10.0.0.1", SrcPort := 12345,
         DstIP := "93.184.216.34", DstPort := 80,
         Protocol := ProtoTCP, Length := 100, Flags := "",
         HTTPMethod := "GET", HTTPPath := "/api/users",
         HTTPHost := "example.com", HTTPStatus := 0,
         Raw := traceLine1 }] :=
  ⟨by decide, by decide, by decide, by decide⟩

/-- C9: the tracker's reconnect delay sequence is exactly
1, 2, 4, 8, 16, 30, 30, … seconds: it starts at 1 s, doubles after each
failed attempt, and is capped at 30 s from the sixth delay on. -/
theorem C9_tracker_backoff_sequence (n : Nat) :
    trackerDelay n = if n ≤ 4 then 2 ^ n else 30 := by
  induction n with
  | zero => rfl
  | succ n ih =>
    rcases Nat.lt_or_ge n 5 with h | h
    · interval_cases n <;> decide
    · rw [show trackerDelay (n + 1) = nextReconnectDelay (trackerDelay n) from rfl,
          ih, if_neg (by omega), if_neg (by omega)]
      decide

/-- C8: for every textual IP that parses into one of the eight
private/reserved ranges of `isPrivateIP`, `ResolveHostname` returns the
empty string and leaves the resolver state — the DNS cache, the pending
set, and the async queue — completely unchanged, whatever that state is
(so no cache layer affects the result and nothing is enqueued). -/
theorem C8_resolver_private_ip_early_return (st : ResolverState) (ip : String)
    (p : IPBytes) (hparse : parseIP ip = some p)
    (hpriv : privateRanges.any (fun r => cidrContains r.1 r.2 p) = true) :
    resolveHostname st ip = ("", st) := by
  unfold resolveHostname
  by_cases h0 : ip = "" ∨ ip = "0.0.0.0" ∨ ip = "::"
  · rw [if_pos h0]
  · rw [if_neg h0, if_pos]
    unfold isPrivateIP
    rw [hparse]
    exact hpriv

/-- Witness for C8: one address from each of the eight ranges, applied to
a nonempty resolver state. -/
theorem C8_resolver_private_ip_witness :
    resolveHostname ⟨[("9.9.9.9", "dns9")], ["4.4.4.4"], ["4.4.4.4"], []⟩ "10.1.2.3" =
      ("", ⟨[("9.9.9.9", "dns9")], ["4.4.4.4"], ["4.4.4.4"], []⟩) ∧
    resolveHostname ⟨[], [], [], []⟩ "172.16.0.1" = ("", ⟨[], [], [], []⟩) ∧
    resolveHostname ⟨[], [], [], []⟩ "192.168.1.1" = ("", ⟨[], [], [], []⟩) ∧
    resolveHostname ⟨[], [], [], []⟩ "127.0.0.1" = ("", ⟨[], [], [], []⟩) ∧
    resolveHostname ⟨[], [], [], []⟩ "169.254.1.1" = ("", ⟨[], [], [], []⟩) ∧
    resolveHostname ⟨[], [], [], []⟩ "::1" = ("", ⟨[], [], [], []⟩) ∧
    resolveHostname ⟨[], [], [], []⟩ "fe80::1" = ("", ⟨[], [], [], []⟩) ∧
    resolveHostname ⟨[], [], [], []⟩ "fc00::1" = ("", ⟨[], [], [], []⟩) :=
  ⟨C8_resolver_private_ip_early_return _ "10.1.2.3" [10, 1, 2, 3] (by decide) (by decide),
   C8_resolver_private_ip_early_return _ "172.16.0.1" [172, 16, 0, 1] (by decide) (by decide),
   C8_resolver_private_ip_early_return _ "192.168.1.1" [192, 168, 1, 1] (by decide) (by decide),
   C8_resolver_private_ip_early_return _ "127.0.0.1" [127, 0, 0, 1] (by decide) (by decide),
   C8_resolver_private_ip_early_return _ "169.254.1.1" [169, 254, 1, 1] (by decide) (by decide),
   C8_resolver_private_ip_early_return _ "::1"
     [0, 0, 0, 0, 0, 0, 0, 0, 0, 0, 0, 0, 0, 0, 0, 1] (by decide) (by decide),
   C8_resolver_private_ip_early_return _ "fe80::1"
     [254, 128, 0, 0, 0, 0, 0, 0, 0, 0, 0, 0, 0, 0, 0, 1] (by decide) (by decide),
   C8_resolver_private_ip_early_return _ "fc00::1"
     [252, 0, 0, 0, 0, 0, 0, 0, 0, 0, 0, 0, 0, 0, 0, 1] (by decide) (by decide)⟩

/-- Witness for C2: round-trip of the bytes of "abc" with a trailing byte,
and the protocol error on a length prefix starting with the byte of 'z'. -/
theorem C2_framing_witness :
    ([97, 98, 99] : List Nat).length < 65536 ∧
    ReadLengthPrefixed (writeCommand [97, 98, 99] ++ [120]) =
      Except.ok ([97, 98, 99], [120]) ∧
    4 ≤ ([122, 48, 48, 48] : List Nat).length ∧
    ReadLengthPrefixed [122, 48, 48, 48] = Except.error AdbErr.protocol :=
  ⟨by decide,
   C2_framing_roundtrip_and_protocol_error.1 [97, 98, 99] [120] (by decide),
   by decide,
   C2_framing_roundtrip_and_protocol_error.2 [122, 48, 48, 48] (by decide)
     ⟨122, by decide, by decide⟩⟩

end AdbMon
